import Mathlib

/-!
Shallow embedding of the OpenSafe rule-based safety detector
(src/native/src/safety.rs) and of the concurrent analysis orchestrator
(src/native/src/comprehensive_showcase.rs), with theorems settling the
claims C1 to C10 about them.

Modelling conventions:
* Rust f64 values are modelled as exact rationals; every numeric constant
  appearing in the source (0.95, 0.1, and so on) is exactly representable.
* Regex matching is abstracted by a match oracle: for each pattern list the
  embedding receives the values that pattern.find, respectively
  pattern.find_iter, returned on the analyzed text.  Everything downstream
  of the regex calls is translated literally from the source.
* Shared mutable state (result cache, metrics) is threaded explicitly; the
  success or failure of each lock acquisition is an explicit boolean input,
  and the outcome of the recv_timeout race is an explicit boolean input.
* Wall-clock readings (analysis_time_ms, chrono timestamps, measured model
  durations) and ambient system facts (cpu count, versions) are inputs.
-/

namespace OpenSafe

namespace Safety

/-- Violation record, safety.rs lines 14 to 21.  The field r#type is named
type here. -/
structure Violation where
  type : String
  severity : String
  description : String
  confidence : ℚ
  evidence : List String
deriving DecidableEq

/-- Analysis metadata, safety.rs lines 23 to 30.  The wall-clock fields
analysis_time_ms and timestamp and the field text_length are elided: the
embedding abstracts the text by its per-pattern match results, and no claim
mentions them. -/
structure AnalysisMetadata where
  modelVersion : String
  patternMatches : Nat
deriving DecidableEq

/-- Result record of SafetyAnalyzer::analyze, safety.rs lines 6 to 12. -/
structure SafetyResult where
  safe : Bool
  score : ℚ
  violations : List Violation
  metadata : AnalysisMetadata
deriving DecidableEq

/-- Match oracle for one call of analyze on one text: for each of the five
fixed regex lists of SafetyAnalyzer::new (safety.rs lines 42 to 96), the
result of pattern.find on the lowercased text (harmful, bias, illegal,
misinformation), respectively the list of all matches of pattern.find_iter
on the original-case text (privacy).  The lists are ordered like the
pattern vectors of the source. -/
structure MatchResults where
  harmful : List (Option String)
  bias : List (Option String)
  privacy : List (List String)
  illegal : List (Option String)
  misinformation : List (Option String)
deriving DecidableEq

/-- check_harmful_content, safety.rs lines 146 to 162: one violation per
pattern whose find returned a match. -/
def checkHarmfulContent (finds : List (Option String)) : List Violation :=
  finds.filterMap fun m =>
    m.map fun mat =>
      ⟨"harmful_content", "critical", "Text contains potentially harmful content", 0.95, [mat]⟩

/-- check_bias, safety.rs lines 164 to 180. -/
def checkBias (finds : List (Option String)) : List Violation :=
  finds.filterMap fun m =>
    m.map fun mat =>
      ⟨"bias", "high", "Text contains potentially biased content", 0.8, [mat]⟩

/-- check_privacy, safety.rs lines 182 to 198: one violation per find_iter
occurrence, with redacted evidence. -/
def checkPrivacy (findIters : List (List String)) : List Violation :=
  (findIters.map fun mats =>
    mats.map fun _mat =>
      (⟨"privacy", "high", "Text contains personally identifiable information", 0.9,
        ["[REDACTED]"]⟩ : Violation)).flatten

/-- check_illegal_content, safety.rs lines 200 to 216. -/
def checkIllegalContent (finds : List (Option String)) : List Violation :=
  finds.filterMap fun m =>
    m.map fun mat =>
      ⟨"illegal_content", "critical", "Text contains references to illegal activities", 0.85, [mat]⟩

/-- check_misinformation, safety.rs lines 218 to 234. -/
def checkMisinformation (finds : List (Option String)) : List Violation :=
  finds.filterMap fun m =>
    m.map fun mat =>
      ⟨"misinformation", "medium", "Text contains potential misinformation", 0.75, [mat]⟩

/-- str::to_lowercase, modelled character-wise; the context keywords of
the source are ASCII, for which this agrees with the Rust function. -/
def strToLower (s : String) : String := ⟨s.data.map Char.toLower⟩

/-- Substring containment, modelling str::contains of Rust. -/
def strContains (s needle : String) : Bool := decide (needle.toList <:+: s.toList)

/-- The per-violation rewrite done inside the loop of adjust_for_context,
safety.rs lines 242 to 250: an if / else-if chain, so a critical violation
is downgraded one single step. -/
def adjustViolation (v : Violation) : Violation :=
  if v.severity = "critical" then
    { v with severity := "high", confidence := v.confidence * 0.7 }
  else if v.severity = "high" then
    { v with severity := "medium", confidence := v.confidence * 0.8 }
  else v

/-- adjust_for_context, safety.rs lines 236 to 252.  The local variable
context_lower of the source is inlined. -/
def adjustForContext (violations : List Violation) (context : String) : List Violation :=
  if strContains (strToLower context) "medical" || strContains (strToLower context) "educational"
      || strContains (strToLower context) "academic"
      || strContains (strToLower context) "research" then
    violations.map adjustViolation
  else violations

/-- The severity_weights lookup with unwrap_or 0.5, safety.rs lines 82 to
86 and 262. -/
def severityWeightLookup (s : String) : ℚ :=
  if s = "low" then 0.1
  else if s = "medium" then 0.3
  else if s = "high" then 0.6
  else if s = "critical" then 1.0
  else 0.5

/-- calculate_safety_score, safety.rs lines 254 to 268. -/
def calculateSafetyScore (violations : List Violation) : ℚ :=
  if violations.isEmpty then 1.0
  else
    let totalWeight := (violations.map fun v => severityWeightLookup v.severity * v.confidence).sum
    max (1.0 - min totalWeight 1.0) 0.0

/-- SafetyAnalyzer::analyze, safety.rs lines 98 to 144: the five category
checks collected in order, optional context adjustment, then safe flag and
aggregate score. -/
def analyze (m : MatchResults) (context : Option String) : SafetyResult :=
  let detected :=
    checkHarmfulContent m.harmful ++ checkBias m.bias ++ checkPrivacy m.privacy
      ++ checkIllegalContent m.illegal ++ checkMisinformation m.misinformation
  let patternMatches := detected.length
  let violations :=
    match context with
    | some ctx => adjustForContext detected ctx
    | none => detected
  let safe := violations.isEmpty
  let score := calculateSafetyScore violations
  ⟨safe, score, violations, ⟨"1.0.0", patternMatches⟩⟩

/-- Severity weights exactly as claim C1 words them (low 0.1, medium 0.3,
high 0.6, critical 1.0); the claim assigns no weight to other strings, so
they are sent to 0.  This is the spec-side definition to be compared with
severityWeightLookup on detector-produced violations. -/
def specSeverityWeight (s : String) : ℚ :=
  if s = "low" then 0.1
  else if s = "medium" then 0.3
  else if s = "high" then 0.6
  else if s = "critical" then 1.0
  else 0

/-- A match oracle in which no pattern of any of the five categories
matched the text. -/
def noPatternMatch (m : MatchResults) : Bool :=
  m.harmful.all Option.isNone && m.bias.all Option.isNone
    && m.privacy.all List.isEmpty && m.illegal.all Option.isNone
    && m.misinformation.all Option.isNone

/-- Match oracle of the concrete text "tax evasion": the third illegal
pattern (money laundering or tax evasion, safety.rs line 70) matches, and
no pattern of any other category matches. -/
def taxEvasionMatches : MatchResults :=
  ⟨[none, none, none, none, none],
   [none, none, none, none, none],
   [[], [], [], [], []],
   [none, none, some "tax evasion", none],
   [none, none, none, none, none]⟩

/-- Match oracle of the concrete text "Contact me at a@b.com": the email
privacy pattern (safety.rs line 62) has exactly one find_iter occurrence,
and no other pattern matches. -/
def emailMatches : MatchResults :=
  ⟨[none, none, none, none, none],
   [none, none, none, none, none],
   [[], [], ["a@b.com"], [], []],
   [none, none, none, none],
   [none, none, none, none, none]⟩

/-- Match oracle of the concrete text "How to make a bomb": the second
harmful pattern (safety.rs line 45) matches. -/
def bombMatches : MatchResults :=
  ⟨[none, some "make a bomb", none, none, none],
   [none, none, none, none, none],
   [[], [], [], [], []],
   [none, none, none, none],
   [none, none, none, none, none]⟩

/-- The single violation that analyze produces on emailMatches. -/
def emailPrivacyViolation : Violation :=
  ⟨"privacy", "high", "Text contains personally identifiable information", 0.9, ["[REDACTED]"]⟩

/-- The all-quiet match oracle: no pattern matched anywhere. -/
def quietMatches : MatchResults :=
  ⟨[none, none, none, none, none],
   [none, none, none, none, none],
   [[], [], [], [], []],
   [none, none, none, none],
   [none, none, none, none, none]⟩

end Safety

namespace Showcase

/-- Error enumeration, comprehensive_showcase.rs lines 27 to 35. -/
inductive SafetyAnalysisError where
  | invalidContent (msg : String)
  | processingTimeout
  | resourceExhaustion
  | modelLoadError (msg : String)
  | concurrencyError
  | serializationError (msg : String)
deriving DecidableEq

/-- CategoryScore, comprehensive_showcase.rs lines 88 to 95.  HashMap
fields are modelled as association lists. -/
structure CategoryScore where
  score : ℚ
  confidence : ℚ
  subcategoryScores : List (String × ℚ)
  evidence : List String
  mitigationSuggestions : List String
deriving DecidableEq

/-- FlagType, comprehensive_showcase.rs lines 107 to 115. -/
inductive FlagType where
  | contentViolation
  | biasDetected
  | toxicityFound
  | privacyIssue
  | securityConcern
  | ethicalIssue
deriving DecidableEq

/-- Severity, comprehensive_showcase.rs lines 117 to 123. -/
inductive Severity where
  | low
  | medium
  | high
  | critical
deriving DecidableEq

/-- TextLocation, comprehensive_showcase.rs lines 125 to 131.  The field
end of the source is named stop, since end is a Lean keyword. -/
structure TextLocation where
  start : Nat
  stop : Nat
  line : Option Nat
  column : Option Nat
deriving DecidableEq

/-- SafetyFlag, comprehensive_showcase.rs lines 97 to 105. -/
structure SafetyFlag where
  flagType : FlagType
  severity : Severity
  message : String
  location : TextLocation
  remediation : String
  autoFixable : Bool
deriving DecidableEq

/-- SystemInfo, comprehensive_showcase.rs lines 142 to 148. -/
structure SystemInfo where
  cpuCores : Nat
  memoryMb : Nat
  platform : String
  rustVersion : String
deriving DecidableEq

/-- AnalysisMetadata, comprehensive_showcase.rs lines 133 to 140. -/
structure AnalysisMetadata where
  analyzerVersion : String
  modelVersions : List (String × String)
  processingPipeline : List String
  systemInfo : SystemInfo
  timestamp : Nat
deriving DecidableEq

/-- SafetyScore, comprehensive_showcase.rs lines 78 to 86. -/
structure SafetyScore where
  overallScore : ℚ
  confidence : ℚ
  categories : List (String × CategoryScore)
  flags : List SafetyFlag
  processingTimeMs : Nat
  metadata : AnalysisMetadata
deriving DecidableEq

/-- PerformanceMetrics, comprehensive_showcase.rs lines 267 to 275. -/
structure PerformanceMetrics where
  avgProcessingTimeMs : ℚ
  throughputPerSecond : ℚ
  memoryUsageMb : ℚ
  accuracyPercentage : ℚ
  falsePositiveRate : ℚ
  falseNegativeRate : ℚ
deriving DecidableEq

/-- Default for PerformanceMetrics, comprehensive_showcase.rs lines 565 to
576. -/
def PerformanceMetrics.default : PerformanceMetrics := ⟨0, 0, 0, 0, 0, 0⟩

/-- ModelInfo, comprehensive_showcase.rs lines 292 to 298. -/
structure ModelInfo where
  name : String
  version : String
  modelType : String
  capabilities : List String
deriving DecidableEq

/-- A registered capability implementing the AnalysisModel trait,
comprehensive_showcase.rs lines 286 to 290.  The field durationMs is the
measured wall clock of one call of analyze, an ambient input. -/
structure AnalysisModel where
  isReady : Bool
  analyzeFn : String → Except SafetyAnalysisError SafetyScore
  modelInfo : ModelInfo
  durationMs : Nat

/-- Ambient system facts consumed by create_metadata,
comprehensive_showcase.rs lines 520 to 542. -/
structure SystemEnv where
  cargoPkgVersion : String
  rustVersion : String
  cpuCores : Nat
  osName : String
  unixTime : Nat

/-- create_metadata, comprehensive_showcase.rs lines 520 to 542: the fixed
five-stage pipeline label list plus ambient system facts. -/
def createMetadata (env : SystemEnv) : AnalysisMetadata :=
  ⟨env.cargoPkgVersion, [],
   ["preprocessing", "tokenization", "analysis", "scoring", "postprocessing"],
   ⟨env.cpuCores, 0, env.osName, env.rustVersion⟩,
   env.unixTime⟩

/-- Success or failure of each lock acquisition site of one orchestrator
operation.  Each field names one lock call of the source: models.write in
register_model (line 411), models.read in perform_analysis (line 461),
cache.lock at the cache check (line 423), cache.lock at the cache update
(line 444), metrics.lock in update_metrics (line 551), metrics.lock in
get_performance_metrics (line 558). -/
structure LockBehavior where
  modelsWrite : Bool
  modelsRead : Bool
  cacheRead : Bool
  cacheWrite : Bool
  metricsUpdate : Bool
  metricsRead : Bool

/-- All lock acquisitions succeed: the uncontended, unpoisoned case. -/
def locksOk : LockBehavior := ⟨true, true, true, true, true, true⟩

/-- HashMap insert on an association list: replaces the entry of the key.
Used for the cache (u64 keys) and the merged category map. -/
def alInsert {α β : Type} [DecidableEq α] (k : α) (v : β) (l : List (α × β)) : List (α × β) :=
  (k, v) :: l.filter fun p => decide (p.1 ≠ k)

/-- The mutable analyzer state of AdvancedSafetyAnalyzer reachable from a
single instance: the result cache (line 280) and the running metrics
(line 283).  The registry is passed separately since no claim mutates it
mid-call. -/
structure AnalyzerState where
  cache : List (Nat × SafetyScore)
  metrics : PerformanceMetrics
deriving DecidableEq

/-- Registry snapshot: the HashMap of registered models in its iteration
order. -/
abbrev Registry : Type := List (String × AnalysisModel)

/-- register_model, comprehensive_showcase.rs lines 410 to 414: a write
lock failure converts to ConcurrencyError, otherwise the model is
inserted. -/
def registerModel (locks : LockBehavior) (models : Registry) (name : String)
    (m : AnalysisModel) : Except SafetyAnalysisError Registry :=
  if locks.modelsWrite then Except.ok (alInsert name m models)
  else Except.error SafetyAnalysisError.concurrencyError

/-- The model loop of perform_analysis, comprehensive_showcase.rs lines
471 to 486: models that are not ready are skipped; a model error is
propagated by the question-mark operator; categories are merged under keys
namespaced by model name; flags are concatenated; per-model durations are
collected. -/
def runModels (content : String) (models : Registry)
    (cats : List (String × CategoryScore)) (flags : List SafetyFlag) (times : List Nat) :
    Except SafetyAnalysisError (List (String × CategoryScore) × List SafetyFlag × List Nat) :=
  match models with
  | [] => Except.ok (cats, flags, times)
  | (name, m) :: rest =>
    if m.isReady then
      match m.analyzeFn content with
      | Except.error e => Except.error e
      | Except.ok res =>
        let cats' := res.categories.foldl (fun acc p => alInsert (name ++ "_" ++ p.1) p.2 acc) cats
        runModels content rest cats' (flags ++ res.flags) (times ++ [m.durationMs])
    else runModels content rest cats flags times

/-- calculate_weighted_score, comprehensive_showcase.rs lines 502 to 509:
mean of the category scores, 0 for an empty map. -/
def calculateWeightedScore (cats : List (String × CategoryScore)) : ℚ :=
  if cats.isEmpty then 0
  else (cats.map fun p => p.2.score).sum / (cats.length : ℚ)

/-- calculate_confidence, comprehensive_showcase.rs lines 511 to 518. -/
def calculateConfidence (cats : List (String × CategoryScore)) : ℚ :=
  if cats.isEmpty then 0
  else (cats.map fun p => p.2.confidence).sum / (cats.length : ℚ)

/-- perform_analysis, comprehensive_showcase.rs lines 457 to 500. -/
def performAnalysis (env : SystemEnv) (locks : LockBehavior) (content : String)
    (models : Registry) : Except SafetyAnalysisError SafetyScore :=
  if !locks.modelsRead then Except.error SafetyAnalysisError.concurrencyError
  else if models.isEmpty then
    Except.error (SafetyAnalysisError.modelLoadError "No models available")
  else
    match runModels content models [] [] [] with
    | Except.error e => Except.error e
    | Except.ok (cats, flags, times) =>
      Except.ok
        ⟨calculateWeightedScore cats, calculateConfidence cats, cats, flags,
         times.sum, createMetadata env⟩

/-- update_metrics, comprehensive_showcase.rs lines 550 to 555: running
average, updated only when the metrics lock is acquired (the failure case
is silently skipped by the if-let of the source). -/
def updateMetrics (m : PerformanceMetrics) (elapsedMs : ℚ) : PerformanceMetrics :=
  { m with avgProcessingTimeMs := (m.avgProcessingTimeMs + elapsedMs) / 2 }

/-- Outcome of one analyze_with_timeout call: the returned value, the
analyzer state afterwards, and the content of the job submitted to the
worker pool, if any. -/
structure AnalyzeOutcome where
  result : Except SafetyAnalysisError SafetyScore
  state : AnalyzerState
  dispatchedJob : Option String

/-- analyze_with_timeout, comprehensive_showcase.rs lines 416 to 455.
The cache check uses if-let on cache.lock, so a failed cache lock falls
through to the miss path; on a miss, a job is dispatched, and the caller
either times out (ProcessingTimeout, no state change) or receives the
perform_analysis result; on a successful result the cache and the metrics
are updated, each only when its lock is acquired.  The input timedOut is
the outcome of the recv_timeout race, elapsedMs the measured elapsed wall
clock. -/
def analyzeWithTimeout (hash : String → Nat) (env : SystemEnv) (locks : LockBehavior)
    (timedOut : Bool) (elapsedMs : ℚ) (models : Registry)
    (st : AnalyzerState) (content : String) : AnalyzeOutcome :=
  match (if locks.cacheRead then st.cache.lookup (hash content) else none) with
  | some cached => ⟨Except.ok cached, st, none⟩
  | none =>
    if timedOut then ⟨Except.error SafetyAnalysisError.processingTimeout, st, some content⟩
    else
      match performAnalysis env locks content models with
      | Except.error e => ⟨Except.error e, st, some content⟩
      | Except.ok score =>
        ⟨Except.ok score,
         ⟨if locks.cacheWrite then alInsert (hash content) score st.cache else st.cache,
          if locks.metricsUpdate then updateMetrics st.metrics elapsedMs else st.metrics⟩,
         some content⟩

/-- The closure dispatched to the worker pool at comprehensive_showcase.rs
lines 434 to 437: it computes perform_analysis and sends the value on its
one-shot channel; it touches neither the cache nor the metrics, so running
it to completion returns the analyzer state unchanged together with the
value it sent. -/
def workerRunJob (env : SystemEnv) (locks : LockBehavior) (models : Registry)
    (content : String) (st : AnalyzerState) :
    AnalyzerState × Except SafetyAnalysisError SafetyScore :=
  (st, performAnalysis env locks content models)

/-- get_performance_metrics, comprehensive_showcase.rs lines 557 to 563. -/
def getPerformanceMetrics (locks : LockBehavior) (st : AnalyzerState) :
    Except SafetyAnalysisError PerformanceMetrics :=
  if locks.metricsRead then Except.ok st.metrics
  else Except.error SafetyAnalysisError.concurrencyError

/-- The state of a freshly constructed AdvancedSafetyAnalyzer,
comprehensive_showcase.rs lines 398 to 408: empty cache, default
metrics. -/
def freshState : AnalyzerState := ⟨[], PerformanceMetrics.default⟩

/-- Ambient inputs of one batch item: the lock outcomes, the recv_timeout
race outcome and the measured elapsed time of its analyze_content call. -/
structure ItemEnv where
  locks : LockBehavior
  timedOut : Bool
  elapsedMs : ℚ

/-- The value produced for one item of parallel_batch_analyze,
comprehensive_showcase.rs lines 624 to 630: a fresh analyzer (empty cache,
default metrics) sharing the registry runs analyze_content on the item. -/
def itemResult (hash : String → Nat) (env : SystemEnv) (models : Registry)
    (content : String) (ie : ItemEnv) : Except SafetyAnalysisError SafetyScore :=
  (analyzeWithTimeout hash env ie.locks ie.timedOut ie.elapsedMs models freshState content).result

/-- The indexed messages sent on the fan-in channel by the spawned threads
of parallel_batch_analyze, in input order: thread i sends the pair of i and
its result (line 629). -/
def batchSends (hash : String → Nat) (env : SystemEnv) (models : Registry)
    (items : List (String × ItemEnv)) : List (Nat × Except SafetyAnalysisError SafetyScore) :=
  (items.map fun it => itemResult hash env models it.1 it.2).enum

/-- The receive loop of parallel_batch_analyze, comprehensive_showcase.rs
lines 636 to 641: a vector of n None slots, each received message (i, r)
stored at slot i. -/
def reassemble {α : Type} (n : Nat) (msgs : List (Nat × α)) : List (Option α) :=
  msgs.foldl (fun acc m => acc.set m.1 (some m.2)) (List.replicate n none)

/-- Auxiliary for reasoning about reassemble: the last message with index
j, if any. -/
def lastWrite {α : Type} (j : Nat) : List (Nat × α) → Option α
  | [] => none
  | p :: rest =>
    match lastWrite j rest with
    | some v => some v
    | none => if p.1 = j then some p.2 else none

/-- The collect of Option of Result at comprehensive_showcase.rs lines 647
to 650: a missing slot gives ConcurrencyError. -/
def allSome {α : Type} : List (Option α) → Option (List α)
  | [] => some []
  | none :: _ => none
  | some a :: rest => (allSome rest).map (a :: ·)

/-- Sequencing the per-slot results: the first error, or all values. -/
def seqExcept {ε α : Type} : List (Except ε α) → Except ε (List α)
  | [] => Except.ok []
  | Except.error e :: _ => Except.error e
  | Except.ok a :: rest => (seqExcept rest).map (a :: ·)

/-- parallel_batch_analyze, comprehensive_showcase.rs lines 614 to 651,
as a function of the fan-in arrival order: reassemble the received indexed
messages into input order, then collect. -/
def parallelBatchAnalyze (items : List (String × ItemEnv))
    (arrival : List (Nat × Except SafetyAnalysisError SafetyScore)) :
    Except SafetyAnalysisError (List SafetyScore) :=
  match allSome (reassemble items.length arrival) with
  | none => Except.error SafetyAnalysisError.concurrencyError
  | some rs => seqExcept rs

/-- sequential_batch_analyze, comprehensive_showcase.rs lines 653 to 658:
the items are analyzed one at a time on the shared analyzer state,
short-circuiting at the first error. -/
def sequentialBatchAnalyze (hash : String → Nat) (env : SystemEnv) (models : Registry)
    (st : AnalyzerState) : List (String × ItemEnv) → Except SafetyAnalysisError (List SafetyScore)
  | [] => Except.ok []
  | (c, ie) :: rest =>
    match analyzeWithTimeout hash env ie.locks ie.timedOut ie.elapsedMs models st c with
    | ⟨Except.error e, _, _⟩ => Except.error e
    | ⟨Except.ok s, st', _⟩ => (sequentialBatchAnalyze hash env models st' rest).map (s :: ·)

/-- Every cached entry was computed by perform_analysis from a text whose
fingerprint is its key: the cache consistency invariant of claim C5. -/
def CacheOK (hash : String → Nat) (env : SystemEnv) (locks : LockBehavior)
    (models : Registry) (cache : List (Nat × SafetyScore)) : Prop :=
  ∀ k s, (k, s) ∈ cache → ∃ t, k = hash t ∧ performAnalysis env locks t models = Except.ok s

/-- Every cache key fits in 64 bits, as the u64 fingerprint of the source
does. -/
def CacheKeysNarrow (cache : List (Nat × SafetyScore)) : Prop :=
  ∀ k s, (k, s) ∈ cache → k < 2 ^ 64

/-- Concrete ambient system facts used by the closed witnesses. -/
def sampleEnv : SystemEnv := ⟨"0.1.0", "1.70.0", 8, "linux", 1700000000⟩

/-- Concrete category fragment produced by the sample model. -/
def sampleCategory : CategoryScore := ⟨1, 0.9, [], [], []⟩

/-- Concrete score that the sample model returns for every content. -/
def sampleModelScore : SafetyScore :=
  ⟨1, 0.9, [("toxicity", sampleCategory)], [], 3, createMetadata sampleEnv⟩

/-- Concrete, always ready model used by the closed witnesses. -/
def sampleModel : AnalysisModel :=
  ⟨true, fun _ => Except.ok sampleModelScore, ⟨"m1", "1.0", "rule", []⟩, 3⟩

/-- Concrete one-model registry used by the closed witnesses. -/
def sampleRegistry : Registry := [("m1", sampleModel)]

/-- The merged score that perform_analysis produces from sampleRegistry:
one category namespaced by the model name, mean score and confidence over
that single category, summed duration. -/
def sampleMergedScore : SafetyScore :=
  ⟨1, 0.9, [("m1_toxicity", sampleCategory)], [], 3, createMetadata sampleEnv⟩

/-- Concrete model that is registered but reports not ready. -/
def sleepyModel : AnalysisModel :=
  ⟨false, fun _ => Except.ok sampleModelScore, ⟨"m2", "1.0", "rule", []⟩, 3⟩

/-- Concrete model whose analyze itself fails with ModelLoadError, the
adversarial input of the counterexample to claim C10. -/
def failingModel : AnalysisModel :=
  ⟨true, fun _ => Except.error (SafetyAnalysisError.modelLoadError "inner weights missing"),
   ⟨"m3", "1.0", "rule", []⟩, 3⟩

/-- Concrete fingerprint function used by the closed witnesses: the u64
wrap of the string length stands in for the DefaultHasher value. -/
def sampleHash (t : String) : Nat := t.length % 2 ^ 64

/-- Lock outcomes in which only the cache read lock fails, the concrete
input of the counterexample to claim C9. -/
def cacheReadLockFails : LockBehavior := ⟨true, true, false, true, true, true⟩

/-- Concrete two-item batch used by the closed witness of claim C8. -/
def sampleItems : List (String × ItemEnv) :=
  [("a", ⟨locksOk, false, 5⟩), ("b", ⟨locksOk, false, 6⟩)]

end Showcase

namespace Safety

theorem mem_checkHarmfulContent {finds : List (Option String)} {v : Violation}
    (h : v ∈ checkHarmfulContent finds) :
    ∃ mat, some mat ∈ finds ∧
      v = ⟨"harmful_content", "critical", "Text contains potentially harmful content",
        0.95, [mat]⟩ := by
  simp only [checkHarmfulContent, List.mem_filterMap] at h
  obtain ⟨m, hm, hv⟩ := h
  cases m with
  | none => simp at hv
  | some mat =>
    refine ⟨mat, hm, ?_⟩
    simpa [Option.map] using hv.symm

theorem mem_checkBias {finds : List (Option String)} {v : Violation}
    (h : v ∈ checkBias finds) :
    ∃ mat, some mat ∈ finds ∧
      v = ⟨"bias", "high", "Text contains potentially biased content", 0.8, [mat]⟩ := by
  simp only [checkBias, List.mem_filterMap] at h
  obtain ⟨m, hm, hv⟩ := h
  cases m with
  | none => simp at hv
  | some mat =>
    refine ⟨mat, hm, ?_⟩
    simpa [Option.map] using hv.symm

theorem mem_checkPrivacy {findIters : List (List String)} {v : Violation}
    (h : v ∈ checkPrivacy findIters) :
    v = ⟨"privacy", "high", "Text contains personally identifiable information",
      0.9, ["[REDACTED]"]⟩ := by
  simp only [checkPrivacy, List.mem_flatten, List.mem_map] at h
  obtain ⟨l, ⟨mats, _hmats, rfl⟩, hv⟩ := h
  simp only [List.mem_map] at hv
  obtain ⟨_mat, _, hv⟩ := hv
  exact hv.symm

theorem mem_checkIllegalContent {finds : List (Option String)} {v : Violation}
    (h : v ∈ checkIllegalContent finds) :
    ∃ mat, some mat ∈ finds ∧
      v = ⟨"illegal_content", "critical", "Text contains references to illegal activities",
        0.85, [mat]⟩ := by
  simp only [checkIllegalContent, List.mem_filterMap] at h
  obtain ⟨m, hm, hv⟩ := h
  cases m with
  | none => simp at hv
  | some mat =>
    refine ⟨mat, hm, ?_⟩
    simpa [Option.map] using hv.symm

theorem mem_checkMisinformation {finds : List (Option String)} {v : Violation}
    (h : v ∈ checkMisinformation finds) :
    ∃ mat, some mat ∈ finds ∧
      v = ⟨"misinformation", "medium", "Text contains potential misinformation",
        0.75, [mat]⟩ := by
  simp only [checkMisinformation, List.mem_filterMap] at h
  obtain ⟨m, hm, hv⟩ := h
  cases m with
  | none => simp at hv
  | some mat =>
    refine ⟨mat, hm, ?_⟩
    simpa [Option.map] using hv.symm

/-- The five-category concatenation that analyze builds before context
adjustment. -/
def detectedViolations (m : MatchResults) : List Violation :=
  checkHarmfulContent m.harmful ++ checkBias m.bias ++ checkPrivacy m.privacy
    ++ checkIllegalContent m.illegal ++ checkMisinformation m.misinformation

theorem analyze_violations_none (m : MatchResults) :
    (analyze m none).violations = detectedViolations m := rfl

theorem analyze_violations_some (m : MatchResults) (c : String) :
    (analyze m (some c)).violations = adjustForContext (detectedViolations m) c := rfl

theorem severity_of_detected {m : MatchResults} {v : Violation}
    (h : v ∈ detectedViolations m) :
    v.severity = "critical" ∨ v.severity = "high" ∨ v.severity = "medium" := by
  simp only [detectedViolations, List.mem_append] at h
  rcases h with ((((h | h) | h) | h) | h)
  · obtain ⟨mat, _, rfl⟩ := mem_checkHarmfulContent h; simp
  · obtain ⟨mat, _, rfl⟩ := mem_checkBias h; simp
  · rw [mem_checkPrivacy h]; simp
  · obtain ⟨mat, _, rfl⟩ := mem_checkIllegalContent h; simp
  · obtain ⟨mat, _, rfl⟩ := mem_checkMisinformation h; simp

theorem severity_of_adjustViolation {v : Violation}
    (h : v.severity = "critical" ∨ v.severity = "high" ∨ v.severity = "medium") :
    (adjustViolation v).severity = "critical" ∨ (adjustViolation v).severity = "high"
      ∨ (adjustViolation v).severity = "medium" := by
  unfold adjustViolation
  rcases h with h | h | h <;> simp [h]

theorem severity_of_analyze {m : MatchResults} {ctx : Option String} {v : Violation}
    (h : v ∈ (analyze m ctx).violations) :
    v.severity = "critical" ∨ v.severity = "high" ∨ v.severity = "medium" := by
  cases ctx with
  | none =>
    rw [analyze_violations_none] at h
    exact severity_of_detected h
  | some c =>
    rw [analyze_violations_some] at h
    unfold adjustForContext at h
    split at h
    · simp only [List.mem_map] at h
      obtain ⟨w, hw, rfl⟩ := h
      exact severity_of_adjustViolation (severity_of_detected hw)
    · exact severity_of_detected h

theorem severityWeightLookup_eq_spec {s : String}
    (h : s = "critical" ∨ s = "high" ∨ s = "medium") :
    severityWeightLookup s = specSeverityWeight s := by
  rcases h with h | h | h <;> simp [severityWeightLookup, specSeverityWeight, h]

/-- Claim C1: for every input and every violations list the detector
produces, analyze returns score equal to
max 0 (1 - min 1 (sum of severity weight times confidence)) with the
weight table low 0.1, medium 0.3, high 0.6, critical 1.0, and safe holds
exactly when the violations list is empty; for a text matching no pattern
in any of the five categories, safe is true and the score is 1. -/
theorem c1_score_formula_and_safe (m : MatchResults) (ctx : Option String) :
    (analyze m ctx).score =
      max 0 (1 - min 1 (((analyze m ctx).violations.map
        fun v => specSeverityWeight v.severity * v.confidence).sum))
    ∧ ((analyze m ctx).safe = true ↔ (analyze m ctx).violations = [])
    ∧ (noPatternMatch m = true → (analyze m ctx).safe = true ∧ (analyze m ctx).score = 1) := by
  have hmapeq : ((analyze m ctx).violations.map
      fun v => severityWeightLookup v.severity * v.confidence)
      = ((analyze m ctx).violations.map
        fun v => specSeverityWeight v.severity * v.confidence) := by
    apply List.map_congr_left
    intro v hv
    rw [severityWeightLookup_eq_spec (severity_of_analyze hv)]
  have hscore : (analyze m ctx).score = calculateSafetyScore (analyze m ctx).violations := by
    cases ctx <;> rfl
  have hsafe : (analyze m ctx).safe = (analyze m ctx).violations.isEmpty := by
    cases ctx <;> rfl
  refine ⟨?_, ?_, ?_⟩
  · rw [hscore]
    unfold calculateSafetyScore
    split
    · rename_i hemp
      rw [List.isEmpty_iff] at hemp
      rw [hemp]
      norm_num
    · rw [hmapeq, max_comm, min_comm]
      norm_num
  · rw [hsafe, List.isEmpty_iff]
  · intro hq
    simp only [noPatternMatch, Bool.and_eq_true, List.all_eq_true] at hq
    obtain ⟨⟨⟨⟨h1, h2⟩, h3⟩, h4⟩, h5⟩ := hq
    have hdet : detectedViolations m = [] := by
      unfold detectedViolations
      have e1 : checkHarmfulContent m.harmful = [] := by
        rw [checkHarmfulContent, List.filterMap_eq_nil_iff]
        intro a ha
        have := h1 a ha
        cases a <;> simp_all
      have e2 : checkBias m.bias = [] := by
        rw [checkBias, List.filterMap_eq_nil_iff]
        intro a ha
        have := h2 a ha
        cases a <;> simp_all
      have e3 : checkPrivacy m.privacy = [] := by
        rw [checkPrivacy, List.flatten_eq_nil_iff]
        intro l hl
        simp only [List.mem_map] at hl
        obtain ⟨mats, hmats, rfl⟩ := hl
        have := h3 mats hmats
        simp_all [List.isEmpty_iff]
      have e4 : checkIllegalContent m.illegal = [] := by
        rw [checkIllegalContent, List.filterMap_eq_nil_iff]
        intro a ha
        have := h4 a ha
        cases a <;> simp_all
      have e5 : checkMisinformation m.misinformation = [] := by
        rw [checkMisinformation, List.filterMap_eq_nil_iff]
        intro a ha
        have := h5 a ha
        cases a <;> simp_all
      rw [e1, e2, e3, e4, e5]
      rfl
    have hviol : (analyze m ctx).violations = [] := by
      cases ctx with
      | none => rw [analyze_violations_none]; exact hdet
      | some c =>
        rw [analyze_violations_some, hdet]
        unfold adjustForContext
        split <;> simp
    constructor
    · rw [hsafe, hviol]
      rfl
    · rw [hscore, hviol]
      norm_num [calculateSafetyScore]

/-- Closed witness for C1 at the all-quiet match oracle. -/
theorem c1_score_formula_and_safe_witness :
    noPatternMatch quietMatches = true
    ∧ ((analyze quietMatches none).safe = true ∧ (analyze quietMatches none).score = 1) :=
  ⟨by decide, (c1_score_formula_and_safe quietMatches none).2.2 (by decide)⟩

theorem weight_term_nonneg {m : MatchResults} {v : Violation}
    (h : v ∈ detectedViolations m) :
    0 ≤ severityWeightLookup v.severity * v.confidence := by
  simp only [detectedViolations, List.mem_append] at h
  rcases h with ((((h | h) | h) | h) | h)
  · obtain ⟨mat, _, rfl⟩ := mem_checkHarmfulContent h
    simp [severityWeightLookup] <;> norm_num
  · obtain ⟨mat, _, rfl⟩ := mem_checkBias h
    simp [severityWeightLookup] <;> norm_num
  · rw [mem_checkPrivacy h]
    simp [severityWeightLookup] <;> norm_num
  · obtain ⟨mat, _, rfl⟩ := mem_checkIllegalContent h
    simp [severityWeightLookup] <;> norm_num
  · obtain ⟨mat, _, rfl⟩ := mem_checkMisinformation h
    simp [severityWeightLookup] <;> norm_num

/-- Counterexample to claim C2 as stated: the concrete text "tax evasion"
matches the third illegal pattern, a critical-severity pattern, yet with
no context its score is 0.15, not at most 0.05, because the illegal
category carries confidence 0.85, not 0.95. -/
theorem c2_score_counterexample :
    taxEvasionMatches.illegal[2]? = some (some "tax evasion")
    ∧ (analyze taxEvasionMatches none).safe = false
    ∧ (analyze taxEvasionMatches none).score = 3 / 20
    ∧ ¬(analyze taxEvasionMatches none).score ≤ 1 / 20 := by
  have hs : (analyze taxEvasionMatches none).score = 3 / 20 := by
    simp [analyze, checkHarmfulContent, checkBias, checkPrivacy, checkIllegalContent,
      checkMisinformation, taxEvasionMatches, calculateSafetyScore, severityWeightLookup]
    norm_num
  refine ⟨by decide, ?_, hs, ?_⟩
  · simp [analyze, checkHarmfulContent, checkBias, checkPrivacy, checkIllegalContent,
      checkMisinformation, taxEvasionMatches]
  · rw [hs]; norm_num

/-- Claim C2, amended: a text matching at least one critical-severity
pattern (a harmful-content or illegal-content pattern), analyzed with no
context, has score at most 0.15 (the critical weight 1.0 times the least
critical-category confidence 0.85) and safe is false.  The spec bound
0.05 holds only for harmful-content matches, whose confidence is 0.95. -/
theorem c2_critical_match_bound (m : MatchResults)
    (h : m.harmful.any Option.isSome = true ∨ m.illegal.any Option.isSome = true) :
    (analyze m none).score ≤ 3 / 20 ∧ (analyze m none).safe = false := by
  obtain ⟨v, hv, hvw⟩ :
      ∃ v, v ∈ detectedViolations m
        ∧ 17 / 20 ≤ severityWeightLookup v.severity * v.confidence := by
    rcases h with h | h
    · rw [List.any_eq_true] at h
      obtain ⟨x, hx, hsome⟩ := h
      obtain ⟨mat, rfl⟩ := Option.isSome_iff_exists.1 hsome
      refine ⟨⟨"harmful_content", "critical", "Text contains potentially harmful content",
        0.95, [mat]⟩, ?_, by simp [severityWeightLookup] <;> norm_num⟩
      have hmem : (⟨"harmful_content", "critical",
          "Text contains potentially harmful content", 0.95, [mat]⟩ : Violation)
          ∈ checkHarmfulContent m.harmful :=
        List.mem_filterMap.2 ⟨some mat, hx, rfl⟩
      simp only [detectedViolations, List.mem_append]
      exact Or.inl (Or.inl (Or.inl (Or.inl hmem)))
    · rw [List.any_eq_true] at h
      obtain ⟨x, hx, hsome⟩ := h
      obtain ⟨mat, rfl⟩ := Option.isSome_iff_exists.1 hsome
      refine ⟨⟨"illegal_content", "critical",
        "Text contains references to illegal activities", 0.85, [mat]⟩, ?_,
        by simp [severityWeightLookup] <;> norm_num⟩
      have hmem : (⟨"illegal_content", "critical",
          "Text contains references to illegal activities", 0.85, [mat]⟩ : Violation)
          ∈ checkIllegalContent m.illegal :=
        List.mem_filterMap.2 ⟨some mat, hx, rfl⟩
      simp only [detectedViolations, List.mem_append]
      exact Or.inl (Or.inr hmem)
  have hviol : (analyze m none).violations = detectedViolations m := analyze_violations_none m
  have hne : detectedViolations m ≠ [] := List.ne_nil_of_mem hv
  have hscore : (analyze m none).score = calculateSafetyScore (detectedViolations m) := rfl
  have hsafe : (analyze m none).safe = (detectedViolations m).isEmpty := rfl
  constructor
  · rw [hscore]
    unfold calculateSafetyScore
    split
    · rename_i hemp
      rw [List.isEmpty_iff] at hemp
      exact absurd hemp hne
    · have hterm : (17 : ℚ) / 20 ≤ ((detectedViolations m).map
          fun w => severityWeightLookup w.severity * w.confidence).sum := by
        refine le_trans hvw (List.single_le_sum ?_ _ ?_)
        · intro x hx
          obtain ⟨w, hw, rfl⟩ := List.mem_map.1 hx
          exact weight_term_nonneg hw
        · exact List.mem_map_of_mem _ hv
      have hmin : (17 : ℚ) / 20 ≤ min (((detectedViolations m).map
          fun w => severityWeightLookup w.severity * w.confidence).sum) 1.0 :=
        le_min hterm (by norm_num)
      refine max_le ?_ (by norm_num)
      linarith
  · rw [hsafe]
    simpa [List.isEmpty_iff] using hne

/-- Closed witness for the amended C2 at the tax-evasion oracle. -/
theorem c2_critical_match_bound_witness :
    (taxEvasionMatches.harmful.any Option.isSome = true
      ∨ taxEvasionMatches.illegal.any Option.isSome = true)
    ∧ ((analyze taxEvasionMatches none).score ≤ 3 / 20
      ∧ (analyze taxEvasionMatches none).safe = false) :=
  ⟨Or.inr (by decide), c2_critical_match_bound taxEvasionMatches (Or.inr (by decide))⟩

/-- Claim C3: whenever the context contains medical, educational, academic
or research (checked on the lowercased context), adjust_for_context maps
each critical violation to severity high with confidence times 0.7, each
high violation to severity medium with confidence times 0.8, leaves medium
and low violations unchanged, preserves type, description and evidence of
every violation, and applies the downgrade exactly once: the result is a
single map of this one-step rewrite, so a critical violation never
cascades to medium. -/
theorem c3_context_downgrade (violations : List Violation) (context : String)
    (h : strContains (strToLower context) "medical" = true
      ∨ strContains (strToLower context) "educational" = true
      ∨ strContains (strToLower context) "academic" = true
      ∨ strContains (strToLower context) "research" = true) :
    adjustForContext violations context = violations.map fun v =>
      if v.severity = "critical" then
        ⟨v.type, "high", v.description, v.confidence * 0.7, v.evidence⟩
      else if v.severity = "high" then
        ⟨v.type, "medium", v.description, v.confidence * 0.8, v.evidence⟩
      else v := by
  have hcond : (strContains (strToLower context) "medical"
      || strContains (strToLower context) "educational"
      || strContains (strToLower context) "academic"
      || strContains (strToLower context) "research") = true := by
    rcases h with h | h | h | h <;> simp [h]
  unfold adjustForContext
  rw [if_pos hcond]
  apply List.map_congr_left
  intro v _
  by_cases h1 : v.severity = "critical"
  · simp [adjustViolation, h1]
  · by_cases h2 : v.severity = "high" <;> simp [adjustViolation, h1, h2]

/-- Closed witness for C3: an educational context downgrades a lone
critical violation to high with confidence times 0.7, leaving its type,
description and evidence unchanged. -/
theorem c3_context_downgrade_witness :
    strContains (strToLower "educational video") "educational" = true
    ∧ adjustForContext
        [⟨"harmful_content", "critical", "Text contains potentially harmful content",
          0.95, ["make a bomb"]⟩] "educational video"
      = [⟨"harmful_content", "high", "Text contains potentially harmful content",
          0.95 * 0.7, ["make a bomb"]⟩] := by
  refine ⟨by decide, ?_⟩
  have h := c3_context_downgrade
    [⟨"harmful_content", "critical", "Text contains potentially harmful content",
      0.95, ["make a bomb"]⟩] "educational video" (Or.inr (Or.inl (by decide)))
  simpa using h

theorem adjustViolation_type (v : Violation) : (adjustViolation v).type = v.type := by
  unfold adjustViolation
  split
  · rfl
  · split <;> rfl

theorem adjustViolation_evidence (v : Violation) :
    (adjustViolation v).evidence = v.evidence := by
  unfold adjustViolation
  split
  · rfl
  · split <;> rfl

theorem analyze_violations_cases (m : MatchResults) (ctx : Option String) :
    (analyze m ctx).violations = detectedViolations m
    ∨ (analyze m ctx).violations = (detectedViolations m).map adjustViolation := by
  cases ctx with
  | none => exact Or.inl (analyze_violations_none m)
  | some c =>
    rw [analyze_violations_some]
    unfold adjustForContext
    split
    · exact Or.inr rfl
    · exact Or.inl rfl

theorem detected_privacy_evidence {m : MatchResults} {v : Violation}
    (hv : v ∈ detectedViolations m) (ht : v.type = "privacy") :
    v.evidence = ["[REDACTED]"] := by
  simp only [detectedViolations, List.mem_append] at hv
  rcases hv with ((((h | h) | h) | h) | h)
  · obtain ⟨mat, _, rfl⟩ := mem_checkHarmfulContent h; simp at ht
  · obtain ⟨mat, _, rfl⟩ := mem_checkBias h; simp at ht
  · rw [mem_checkPrivacy h]
  · obtain ⟨mat, _, rfl⟩ := mem_checkIllegalContent h; simp at ht
  · obtain ⟨mat, _, rfl⟩ := mem_checkMisinformation h; simp at ht

theorem detected_nonprivacy_evidence {m : MatchResults} {v : Violation}
    (hv : v ∈ detectedViolations m) (ht : v.type ≠ "privacy") :
    ∃ mat, v.evidence = [mat]
      ∧ (some mat ∈ m.harmful ∨ some mat ∈ m.bias ∨ some mat ∈ m.illegal
        ∨ some mat ∈ m.misinformation) := by
  simp only [detectedViolations, List.mem_append] at hv
  rcases hv with ((((h | h) | h) | h) | h)
  · obtain ⟨mat, hm, rfl⟩ := mem_checkHarmfulContent h
    exact ⟨mat, rfl, Or.inl hm⟩
  · obtain ⟨mat, hm, rfl⟩ := mem_checkBias h
    exact ⟨mat, rfl, Or.inr (Or.inl hm)⟩
  · rw [mem_checkPrivacy h] at ht
    exact absurd rfl ht
  · obtain ⟨mat, hm, rfl⟩ := mem_checkIllegalContent h
    exact ⟨mat, rfl, Or.inr (Or.inr (Or.inl hm))⟩
  · obtain ⟨mat, hm, rfl⟩ := mem_checkMisinformation h
    exact ⟨mat, rfl, Or.inr (Or.inr (Or.inr hm))⟩

theorem checkPrivacy_length (fi : List (List String)) :
    (checkPrivacy fi).length = (fi.map List.length).sum := by
  unfold checkPrivacy
  rw [List.length_flatten]
  congr 1
  rw [List.map_map]
  apply List.map_congr_left
  intro mats _
  simp

theorem detected_privacy_count (m : MatchResults) :
    (detectedViolations m).countP (fun v => decide (v.type = "privacy"))
      = (m.privacy.map List.length).sum := by
  unfold detectedViolations
  rw [List.countP_append, List.countP_append, List.countP_append, List.countP_append]
  have z1 : (checkHarmfulContent m.harmful).countP
      (fun v => decide (v.type = "privacy")) = 0 := by
    rw [List.countP_eq_zero]
    intro v hv
    obtain ⟨mat, _, rfl⟩ := mem_checkHarmfulContent hv
    simp
  have z2 : (checkBias m.bias).countP (fun v => decide (v.type = "privacy")) = 0 := by
    rw [List.countP_eq_zero]
    intro v hv
    obtain ⟨mat, _, rfl⟩ := mem_checkBias hv
    simp
  have z4 : (checkIllegalContent m.illegal).countP
      (fun v => decide (v.type = "privacy")) = 0 := by
    rw [List.countP_eq_zero]
    intro v hv
    obtain ⟨mat, _, rfl⟩ := mem_checkIllegalContent hv
    simp
  have z5 : (checkMisinformation m.misinformation).countP
      (fun v => decide (v.type = "privacy")) = 0 := by
    rw [List.countP_eq_zero]
    intro v hv
    obtain ⟨mat, _, rfl⟩ := mem_checkMisinformation hv
    simp
  have zp : (checkPrivacy m.privacy).countP (fun v => decide (v.type = "privacy"))
      = (checkPrivacy m.privacy).length := by
    rw [List.countP_eq_length]
    intro v hv
    rw [mem_checkPrivacy hv]
    simp
  rw [z1, z2, z4, z5, zp, checkPrivacy_length]
  omega

/-- Claim C4: every privacy violation the detector produces carries the
single evidence string REDACTED and never the matched substring; the
number of privacy violations equals the total number of find_iter
occurrences of the privacy patterns on the original-case text; and every
violation of any other category carries exactly its raw matched substring
as evidence, so privacy is the only category whose evidence omits the raw
matched text. -/
theorem c4_privacy_redaction (m : MatchResults) (ctx : Option String) :
    (∀ v ∈ (analyze m ctx).violations, v.type = "privacy" → v.evidence = ["[REDACTED]"])
    ∧ (analyze m ctx).violations.countP (fun v => decide (v.type = "privacy"))
        = (m.privacy.map List.length).sum
    ∧ (∀ v ∈ (analyze m ctx).violations, v.type ≠ "privacy" →
        ∃ mat, v.evidence = [mat]
          ∧ (some mat ∈ m.harmful ∨ some mat ∈ m.bias ∨ some mat ∈ m.illegal
            ∨ some mat ∈ m.misinformation)) := by
  have hfun : (fun w => decide ((adjustViolation w).type = "privacy"))
      = fun w : Violation => decide (w.type = "privacy") := by
    funext w
    rw [adjustViolation_type]
  rcases analyze_violations_cases m ctx with hC | hC <;> rw [hC]
  · exact ⟨fun v hv ht => detected_privacy_evidence hv ht, detected_privacy_count m,
      fun v hv ht => detected_nonprivacy_evidence hv ht⟩
  · refine ⟨?_, ?_, ?_⟩
    · intro v hv ht
      obtain ⟨w, hw, rfl⟩ := List.mem_map.1 hv
      rw [adjustViolation_type] at ht
      rw [adjustViolation_evidence]
      exact detected_privacy_evidence hw ht
    · rw [List.countP_map]
      show (detectedViolations m).countP (fun w => decide ((adjustViolation w).type = "privacy"))
        = (m.privacy.map List.length).sum
      rw [hfun]
      exact detected_privacy_count m
    · intro v hv ht
      obtain ⟨w, hw, rfl⟩ := List.mem_map.1 hv
      rw [adjustViolation_type] at ht
      rw [adjustViolation_evidence]
      exact detected_nonprivacy_evidence hw ht

/-- Closed witness for C4 at the email oracle: the single produced privacy
violation has redacted evidence. -/
theorem c4_privacy_redaction_witness :
    emailPrivacyViolation ∈ (analyze emailMatches none).violations
    ∧ emailPrivacyViolation.type = "privacy"
    ∧ emailPrivacyViolation.evidence = ["[REDACTED]"] := by
  have hmem : emailPrivacyViolation ∈ (analyze emailMatches none).violations := by
    rw [analyze_violations_none]
    simp only [detectedViolations, emailMatches, checkHarmfulContent, checkBias, checkPrivacy,
      checkIllegalContent, checkMisinformation]
    simp [emailPrivacyViolation]
  exact ⟨hmem, rfl, (c4_privacy_redaction emailMatches none).1 emailPrivacyViolation hmem rfl⟩

end Safety

namespace Showcase

theorem lookup_alInsert_self {β : Type} (k : Nat) (v : β) (l : List (Nat × β)) :
    (alInsert k v l).lookup k = some v := by
  simp [alInsert, List.lookup]

theorem mem_alInsert {β : Type} {k' : Nat} {v' : β} {k : Nat} {v : β} {l : List (Nat × β)}
    (h : (k', v') ∈ alInsert k v l) : (k' = k ∧ v' = v) ∨ (k', v') ∈ l := by
  simp only [alInsert, List.mem_cons, List.mem_filter] at h
  rcases h with h | h
  · exact Or.inl ⟨congrArg Prod.fst h, congrArg Prod.snd h⟩
  · exact Or.inr h.1

theorem analyzeWithTimeout_hit {hash : String → Nat} {env : SystemEnv} {locks : LockBehavior}
    {timedOut : Bool} {elapsedMs : ℚ} {models : Registry} {st : AnalyzerState}
    {content : String} {cached : SafetyScore}
    (h : (if locks.cacheRead then st.cache.lookup (hash content) else none) = some cached) :
    analyzeWithTimeout hash env locks timedOut elapsedMs models st content
      = ⟨Except.ok cached, st, none⟩ := by
  unfold analyzeWithTimeout
  rw [h]

theorem analyzeWithTimeout_miss_timeout {hash : String → Nat} {env : SystemEnv}
    {locks : LockBehavior} {elapsedMs : ℚ} {models : Registry} {st : AnalyzerState}
    {content : String}
    (h : (if locks.cacheRead then st.cache.lookup (hash content) else none) = none) :
    analyzeWithTimeout hash env locks true elapsedMs models st content
      = ⟨Except.error SafetyAnalysisError.processingTimeout, st, some content⟩ := by
  unfold analyzeWithTimeout
  rw [h]
  rfl

theorem analyzeWithTimeout_miss_err {hash : String → Nat} {env : SystemEnv}
    {locks : LockBehavior} {elapsedMs : ℚ} {models : Registry} {st : AnalyzerState}
    {content : String} {e : SafetyAnalysisError}
    (h : (if locks.cacheRead then st.cache.lookup (hash content) else none) = none)
    (he : performAnalysis env locks content models = Except.error e) :
    analyzeWithTimeout hash env locks false elapsedMs models st content
      = ⟨Except.error e, st, some content⟩ := by
  unfold analyzeWithTimeout
  rw [h]
  simp only [Bool.false_eq_true, if_false]
  rw [he]

theorem analyzeWithTimeout_miss_ok {hash : String → Nat} {env : SystemEnv}
    {locks : LockBehavior} {elapsedMs : ℚ} {models : Registry} {st : AnalyzerState}
    {content : String} {score : SafetyScore}
    (h : (if locks.cacheRead then st.cache.lookup (hash content) else none) = none)
    (hs : performAnalysis env locks content models = Except.ok score) :
    analyzeWithTimeout hash env locks false elapsedMs models st content
      = ⟨Except.ok score,
         ⟨if locks.cacheWrite then alInsert (hash content) score st.cache else st.cache,
          if locks.metricsUpdate then updateMetrics st.metrics elapsedMs else st.metrics⟩,
         some content⟩ := by
  unfold analyzeWithTimeout
  rw [h]
  simp only [Bool.false_eq_true, if_false]
  rw [hs]

theorem analyzeWithTimeout_dispatch_of_miss {hash : String → Nat} {env : SystemEnv}
    {locks : LockBehavior} {timedOut : Bool} {elapsedMs : ℚ} {models : Registry}
    {st : AnalyzerState} {content : String}
    (h : (if locks.cacheRead then st.cache.lookup (hash content) else none) = none) :
    (analyzeWithTimeout hash env locks timedOut elapsedMs models st content).dispatchedJob
      = some content := by
  cases timedOut with
  | true => rw [analyzeWithTimeout_miss_timeout h]
  | false =>
    cases hp : performAnalysis env locks content models with
    | error e => rw [analyzeWithTimeout_miss_err h hp]
    | ok s => rw [analyzeWithTimeout_miss_ok h hp]

/-- Claim C5: the cache key is the fixed-width (64-bit) fingerprint of the
exact input text (the source applies no normalization before hashing, so
the normalization is the identity and there is no drift between the key
used for the cache check and the key used for the write-through), and
analyze_with_timeout preserves the invariant that every cached entry is
stored under the fingerprint of the exact text its score was computed
from. -/
theorem c5_cache_fingerprint_invariant (hash : String → Nat) (env : SystemEnv)
    (locks : LockBehavior) (timedOut : Bool) (elapsedMs : ℚ) (models : Registry)
    (st : AnalyzerState) (content : String)
    (hOK : CacheOK hash env locks models st.cache)
    (hW : ∀ t, hash t < 2 ^ 64)
    (hN : CacheKeysNarrow st.cache) :
    CacheOK hash env locks models
      (analyzeWithTimeout hash env locks timedOut elapsedMs models st content).state.cache
    ∧ CacheKeysNarrow
      (analyzeWithTimeout hash env locks timedOut elapsedMs models st content).state.cache := by
  cases hl : (if locks.cacheRead then st.cache.lookup (hash content) else none) with
  | some cached =>
    rw [analyzeWithTimeout_hit hl]
    exact ⟨hOK, hN⟩
  | none =>
    cases timedOut with
    | true =>
      rw [analyzeWithTimeout_miss_timeout hl]
      exact ⟨hOK, hN⟩
    | false =>
      cases hp : performAnalysis env locks content models with
      | error e =>
        rw [analyzeWithTimeout_miss_err hl hp]
        exact ⟨hOK, hN⟩
      | ok score =>
        rw [analyzeWithTimeout_miss_ok hl hp]
        by_cases hw : locks.cacheWrite = true
        · simp only [hw, if_true]
          constructor
          · intro k s hmem
            rcases mem_alInsert hmem with ⟨rfl, rfl⟩ | hold
            · exact ⟨content, rfl, hp⟩
            · exact hOK k s hold
          · intro k s hmem
            rcases mem_alInsert hmem with ⟨rfl, rfl⟩ | hold
            · exact hW content
            · exact hN k s hold
        · simp only [hw, if_false]
          exact ⟨hOK, hN⟩

/-- Closed witness for C5: starting from the fresh empty cache, one
successful analysis preserves the invariant. -/
theorem c5_cache_fingerprint_invariant_witness :
    CacheOK sampleHash sampleEnv locksOk sampleRegistry freshState.cache
    ∧ CacheOK sampleHash sampleEnv locksOk sampleRegistry
        (analyzeWithTimeout sampleHash sampleEnv locksOk false 10 sampleRegistry
          freshState "x").state.cache
    ∧ CacheKeysNarrow
        (analyzeWithTimeout sampleHash sampleEnv locksOk false 10 sampleRegistry
          freshState "x").state.cache := by
  have hOK : CacheOK sampleHash sampleEnv locksOk sampleRegistry freshState.cache := by
    intro k s h
    simp [freshState] at h
  have hN : CacheKeysNarrow freshState.cache := by
    intro k s h
    simp [freshState] at h
  have hW : ∀ t : String, sampleHash t < 2 ^ 64 := by
    intro t
    exact Nat.mod_lt _ (by norm_num)
  exact ⟨hOK,
    (c5_cache_fingerprint_invariant sampleHash sampleEnv locksOk false 10 sampleRegistry
      freshState "x" hOK hW hN).1,
    (c5_cache_fingerprint_invariant sampleHash sampleEnv locksOk false 10 sampleRegistry
      freshState "x" hOK hW hN).2⟩

/-- Claim C6: a call whose fingerprint is already cached returns the
cached score immediately, submits no job to the pool and leaves cache and
metrics unchanged; consequently two successive calls with identical text
and an unchanged registry return identical scores. -/
theorem c6_cache_hit_frame (hash : String → Nat) (env : SystemEnv) (models : Registry) :
    (∀ (timedOut : Bool) (elapsedMs : ℚ) (st : AnalyzerState) (content : String)
        (cached : SafetyScore),
      st.cache.lookup (hash content) = some cached →
      analyzeWithTimeout hash env locksOk timedOut elapsedMs models st content
        = ⟨Except.ok cached, st, none⟩)
    ∧ (∀ (t1 : Bool) (e1 : ℚ) (t2 : Bool) (e2 : ℚ) (st : AnalyzerState) (content : String)
        (s : SafetyScore),
      (analyzeWithTimeout hash env locksOk t1 e1 models st content).result = Except.ok s →
      (analyzeWithTimeout hash env locksOk t2 e2 models
        (analyzeWithTimeout hash env locksOk t1 e1 models st content).state content).result
        = Except.ok s) := by
  constructor
  · intro timedOut elapsedMs st content cached hc
    exact analyzeWithTimeout_hit (by simpa [locksOk] using hc)
  · intro t1 e1 t2 e2 st content s h1
    cases hl : (if locksOk.cacheRead then st.cache.lookup (hash content) else none) with
    | some cached =>
      rw [analyzeWithTimeout_hit hl] at h1 ⊢
      rw [analyzeWithTimeout_hit hl]
      exact h1
    | none =>
      cases t1 with
      | true =>
        rw [analyzeWithTimeout_miss_timeout hl] at h1
        exact absurd h1 (by simp)
      | false =>
        cases hp : performAnalysis env locksOk content models with
        | error e =>
          rw [analyzeWithTimeout_miss_err hl hp] at h1
          exact absurd h1 (by simp)
        | ok score =>
          rw [analyzeWithTimeout_miss_ok hl hp] at h1
          simp only at h1
          injection h1 with hss
          rw [analyzeWithTimeout_miss_ok hl hp]
          have hhit : (if locksOk.cacheRead then
              (⟨if locksOk.cacheWrite then alInsert (hash content) score st.cache else st.cache,
                if locksOk.metricsUpdate then updateMetrics st.metrics e1
                else st.metrics⟩ : AnalyzerState).cache.lookup (hash content)
              else none) = some score := by
            simp only [locksOk, if_true]
            exact lookup_alInsert_self (hash content) score st.cache
          rw [analyzeWithTimeout_hit hhit]
          simp [hss]

/-- Closed witness for C6: a first successful call on the fresh state
followed by a second call with the same text returns the same score. -/
theorem c6_cache_hit_frame_witness :
    (analyzeWithTimeout sampleHash sampleEnv locksOk false 10 sampleRegistry
        freshState "x").result = Except.ok sampleMergedScore
    ∧ (analyzeWithTimeout sampleHash sampleEnv locksOk false 7 sampleRegistry
        (analyzeWithTimeout sampleHash sampleEnv locksOk false 10 sampleRegistry
          freshState "x").state "x").result = Except.ok sampleMergedScore := by
  have h1 : (analyzeWithTimeout sampleHash sampleEnv locksOk false 10 sampleRegistry
      freshState "x").result = Except.ok sampleMergedScore := by
    simp [analyzeWithTimeout, locksOk, freshState, sampleHash, performAnalysis, sampleRegistry,
      sampleModel, runModels, alInsert, sampleModelScore, calculateWeightedScore,
      calculateConfidence, sampleMergedScore, sampleCategory]
  exact ⟨h1,
    (c6_cache_hit_frame sampleHash sampleEnv sampleRegistry).2 false 10 false 7
      freshState "x" sampleMergedScore h1⟩

/-- Counterexample to claim C7 as stated: with one ready model and an
empty cache, a timed-out call returns ProcessingTimeout, the orphaned job
runs to completion and produces its Ok value, yet the shared cache still
has no entry for the fingerprint afterwards, and a re-issued request for
the same text misses the cache and dispatches a fresh job instead of
hitting.  The claimed write-through by the orphaned job does not exist:
the cache insert sits in the branch of the caller that received the
result in time, and the job closure only sends on its channel. -/
theorem c7_orphan_writeback_counterexample :
    (analyzeWithTimeout sampleHash sampleEnv locksOk true 10 sampleRegistry
        freshState "x").result = Except.error SafetyAnalysisError.processingTimeout
    ∧ (analyzeWithTimeout sampleHash sampleEnv locksOk true 10 sampleRegistry
        freshState "x").dispatchedJob = some "x"
    ∧ (workerRunJob sampleEnv locksOk sampleRegistry "x"
        (analyzeWithTimeout sampleHash sampleEnv locksOk true 10 sampleRegistry
          freshState "x").state).2 = Except.ok sampleMergedScore
    ∧ ((workerRunJob sampleEnv locksOk sampleRegistry "x"
        (analyzeWithTimeout sampleHash sampleEnv locksOk true 10 sampleRegistry
          freshState "x").state).1.cache.lookup (sampleHash "x") = none)
    ∧ (analyzeWithTimeout sampleHash sampleEnv locksOk false 7 sampleRegistry
        (workerRunJob sampleEnv locksOk sampleRegistry "x"
          (analyzeWithTimeout sampleHash sampleEnv locksOk true 10 sampleRegistry
            freshState "x").state).1 "x").dispatchedJob = some "x" := by
  have hmiss : (if locksOk.cacheRead then freshState.cache.lookup (sampleHash "x") else none)
      = none := by
    simp [locksOk, freshState]
  have h1 := @analyzeWithTimeout_miss_timeout sampleHash sampleEnv locksOk 10 sampleRegistry
    freshState "x" hmiss
  refine ⟨by rw [h1], by rw [h1], ?_, ?_, ?_⟩
  · rw [h1]
    show performAnalysis sampleEnv locksOk "x" sampleRegistry = Except.ok sampleMergedScore
    simp [performAnalysis, locksOk, sampleRegistry, sampleModel, runModels, alInsert,
      sampleModelScore, calculateWeightedScore, calculateConfidence, sampleMergedScore,
      sampleCategory]
  · rw [h1]
    simp [workerRunJob, freshState]
  · rw [h1]
    exact analyzeWithTimeout_dispatch_of_miss (by simp [workerRunJob, locksOk, freshState])

/-- Claim C7, amended: on timeout analyze_with_timeout returns
ProcessingTimeout, leaves the cache and the metrics unchanged, and the
dispatched job is not cancelled: the worker still runs it to completion,
producing exactly the perform_analysis value, but its completion only
sends on the now-abandoned channel and touches neither the cache nor the
metrics, so a re-issued request for the same text does not hit the cache
on account of the orphaned job. -/
theorem c7_timeout_orphan (hash : String → Nat) (env : SystemEnv) (locks : LockBehavior)
    (elapsedMs : ℚ) (models : Registry) (st : AnalyzerState) (content : String)
    (hmiss : (if locks.cacheRead then st.cache.lookup (hash content) else none) = none) :
    analyzeWithTimeout hash env locks true elapsedMs models st content
      = ⟨Except.error SafetyAnalysisError.processingTimeout, st, some content⟩
    ∧ workerRunJob env locks models content st = (st, performAnalysis env locks content models)
    ∧ (∀ t2 e2, (analyzeWithTimeout hash env locks t2 e2 models
        (workerRunJob env locks models content
          (analyzeWithTimeout hash env locks true elapsedMs models st content).state).1
        content).dispatchedJob = some content) := by
  have h1 := @analyzeWithTimeout_miss_timeout hash env locks elapsedMs models st content hmiss
  refine ⟨h1, rfl, ?_⟩
  intro t2 e2
  rw [h1]
  exact analyzeWithTimeout_dispatch_of_miss (by simpa [workerRunJob] using hmiss)

/-- Closed witness for the amended C7 on the fresh state with the sample
registry. -/
theorem c7_timeout_orphan_witness :
    ((if locksOk.cacheRead then freshState.cache.lookup (sampleHash "x") else none) = none)
    ∧ (analyzeWithTimeout sampleHash sampleEnv locksOk true 10 sampleRegistry freshState "x"
        = ⟨Except.error SafetyAnalysisError.processingTimeout, freshState, some "x"⟩) := by
  have hmiss : (if locksOk.cacheRead then freshState.cache.lookup (sampleHash "x") else none)
      = none := by
    simp [locksOk, freshState]
  exact ⟨hmiss,
    (c7_timeout_orphan sampleHash sampleEnv locksOk 10 sampleRegistry freshState "x" hmiss).1⟩

/-- Counterexample to claim C9 as stated: when the cache lock cannot be
acquired during the cache check of analyze_with_timeout, the failure is
not converted into ConcurrencyError: the call silently treats it as a
cache miss and returns the freshly computed score. -/
theorem c9_lock_swallow_counterexample :
    cacheReadLockFails.cacheRead = false
    ∧ (analyzeWithTimeout sampleHash sampleEnv cacheReadLockFails false 10 sampleRegistry
        freshState "x").result = Except.ok sampleMergedScore
    ∧ (analyzeWithTimeout sampleHash sampleEnv cacheReadLockFails false 10 sampleRegistry
        freshState "x").result ≠ Except.error SafetyAnalysisError.concurrencyError := by
  have h : (analyzeWithTimeout sampleHash sampleEnv cacheReadLockFails false 10 sampleRegistry
      freshState "x").result = Except.ok sampleMergedScore := by
    simp [analyzeWithTimeout, cacheReadLockFails, freshState, sampleHash, performAnalysis,
      sampleRegistry, sampleModel, runModels, alInsert, sampleModelScore,
      calculateWeightedScore, calculateConfidence, sampleMergedScore, sampleCategory]
  refine ⟨rfl, h, ?_⟩
  rw [h]
  simp

/-- Claim C9, amended: lock failures in register_model, in the registry
read of perform_analysis and in get_performance_metrics are converted into
ConcurrencyError; but a failed cache lock at the cache check of
analyze_with_timeout is silently treated as a cache miss (the call
dispatches a job instead of failing), a failed cache lock at the update
silently skips the write-through, and a failed metrics lock silently
skips the metrics update. -/
theorem c9_lock_error_conversion (env : SystemEnv) (locks : LockBehavior) :
    (locks.modelsWrite = false → ∀ models name m,
      registerModel locks models name m = Except.error SafetyAnalysisError.concurrencyError)
    ∧ (locks.modelsRead = false → ∀ content models,
      performAnalysis env locks content models
        = Except.error SafetyAnalysisError.concurrencyError)
    ∧ (locks.metricsRead = false → ∀ st,
      getPerformanceMetrics locks st = Except.error SafetyAnalysisError.concurrencyError)
    ∧ (locks.cacheRead = false → ∀ (hash : String → Nat) t e models st content,
      (analyzeWithTimeout hash env locks t e models st content).dispatchedJob = some content)
    ∧ (locks.cacheWrite = false → ∀ (hash : String → Nat) t e models st content,
      (analyzeWithTimeout hash env locks t e models st content).state.cache = st.cache)
    ∧ (locks.metricsUpdate = false → ∀ (hash : String → Nat) t e models st content,
      (analyzeWithTimeout hash env locks t e models st content).state.metrics = st.metrics) := by
  refine ⟨?_, ?_, ?_, ?_, ?_, ?_⟩
  · intro hw models name m
    simp [registerModel, hw]
  · intro hr content models
    simp [performAnalysis, hr]
  · intro hm st
    simp [getPerformanceMetrics, hm]
  · intro hc hash t e models st content
    exact analyzeWithTimeout_dispatch_of_miss (by simp [hc])
  · intro hw hash t e models st content
    cases hl : (if locks.cacheRead then st.cache.lookup (hash content) else none) with
    | some cached => rw [analyzeWithTimeout_hit hl]
    | none =>
      cases t with
      | true => rw [analyzeWithTimeout_miss_timeout hl]
      | false =>
        cases hp : performAnalysis env locks content models with
        | error er => rw [analyzeWithTimeout_miss_err hl hp]
        | ok score =>
          rw [analyzeWithTimeout_miss_ok hl hp]
          simp [hw]
  · intro hm hash t e models st content
    cases hl : (if locks.cacheRead then st.cache.lookup (hash content) else none) with
    | some cached => rw [analyzeWithTimeout_hit hl]
    | none =>
      cases t with
      | true => rw [analyzeWithTimeout_miss_timeout hl]
      | false =>
        cases hp : performAnalysis env locks content models with
        | error er => rw [analyzeWithTimeout_miss_err hl hp]
        | ok score =>
          rw [analyzeWithTimeout_miss_ok hl hp]
          simp [hm]

/-- Closed witness for the amended C9: a failed registry write lock turns
registration into ConcurrencyError, and a failed cache read lock leaves a
call on the fresh state dispatching a job. -/
theorem c9_lock_error_conversion_witness :
    (⟨false, true, true, true, true, true⟩ : LockBehavior).modelsWrite = false
    ∧ registerModel ⟨false, true, true, true, true, true⟩ ([] : Registry) "m1" sampleModel
        = Except.error SafetyAnalysisError.concurrencyError
    ∧ cacheReadLockFails.cacheRead = false
    ∧ (analyzeWithTimeout sampleHash sampleEnv cacheReadLockFails false 10 sampleRegistry
        freshState "x").dispatchedJob = some "x" :=
  ⟨rfl,
   (c9_lock_error_conversion sampleEnv ⟨false, true, true, true, true, true⟩).1 rfl [] "m1"
     sampleModel,
   rfl,
   (c9_lock_error_conversion sampleEnv cacheReadLockFails).2.2.2.1 rfl sampleHash false 10
     sampleRegistry freshState "x"⟩

theorem runModels_skip_all {content : String} {models : Registry}
    {cats : List (String × CategoryScore)} {flags : List SafetyFlag} {times : List Nat}
    (h : ∀ p ∈ models, p.2.isReady = false) :
    runModels content models cats flags times = Except.ok (cats, flags, times) := by
  induction models with
  | nil => rfl
  | cons hd tl ih =>
    obtain ⟨name, m⟩ := hd
    have hm : m.isReady = false := h (name, m) (List.mem_cons_self _ _)
    unfold runModels
    rw [hm]
    simp only [Bool.false_eq_true, if_false]
    exact ih fun p hp => h p (List.mem_cons_of_mem _ hp)

theorem runModels_error_source {content : String} {models : Registry}
    {cats : List (String × CategoryScore)} {flags : List SafetyFlag} {times : List Nat}
    {e : SafetyAnalysisError}
    (h : runModels content models cats flags times = Except.error e) :
    ∃ p ∈ models, p.2.isReady = true ∧ p.2.analyzeFn content = Except.error e := by
  induction models generalizing cats flags times with
  | nil => simp [runModels] at h
  | cons hd tl ih =>
    obtain ⟨name, m⟩ := hd
    unfold runModels at h
    by_cases hr : m.isReady = true
    · rw [if_pos hr] at h
      cases ha : m.analyzeFn content with
      | error e' =>
        rw [ha] at h
        injection h with he
        subst he
        exact ⟨(name, m), List.mem_cons_self _ _, hr, ha⟩
      | ok res =>
        rw [ha] at h
        obtain ⟨p, hp, hready, herr⟩ := ih h
        exact ⟨p, List.mem_cons_of_mem _ hp, hready, herr⟩
    · rw [if_neg hr] at h
      obtain ⟨p, hp, hready, herr⟩ := ih h
      exact ⟨p, List.mem_cons_of_mem _ hp, hready, herr⟩

/-- Counterexample to claim C10 as stated: a nonempty registry can still
make perform_analysis return ModelLoadError, namely when a registered
ready model itself fails with ModelLoadError and the question-mark
operator propagates it. -/
theorem c10_modelloaderror_counterexample :
    ([("m3", failingModel)] : Registry) ≠ []
    ∧ performAnalysis sampleEnv locksOk "x" [("m3", failingModel)]
        = Except.error (SafetyAnalysisError.modelLoadError "inner weights missing") := by
  constructor
  · simp
  · simp [performAnalysis, locksOk, runModels, failingModel]

/-- Claim C10, amended: perform_analysis itself raises ModelLoadError only
for an empty registry; every other ModelLoadError it returns was produced
by a ready registered model and propagated unchanged.  When the registry
is nonempty but no registered model reports ready, it returns Ok with an
empty category map, an empty flag list, overall score 0 and confidence 0,
so a caller cannot distinguish that nothing analyzed the text from a
maximally unsafe score of 0. -/
theorem c10_empty_vs_unready (env : SystemEnv) (locks : LockBehavior) (content : String)
    (models : Registry) (hlock : locks.modelsRead = true) :
    (models = [] → performAnalysis env locks content models
        = Except.error (SafetyAnalysisError.modelLoadError "No models available"))
    ∧ ((∀ p ∈ models, p.2.isReady = false) → models ≠ [] →
        performAnalysis env locks content models
          = Except.ok ⟨0, 0, [], [], 0, createMetadata env⟩)
    ∧ (∀ msg, performAnalysis env locks content models
          = Except.error (SafetyAnalysisError.modelLoadError msg) → msg ≠ "No models available" →
        ∃ p ∈ models, p.2.isReady = true
          ∧ p.2.analyzeFn content = Except.error (SafetyAnalysisError.modelLoadError msg)) := by
  refine ⟨?_, ?_, ?_⟩
  · intro hnil
    subst hnil
    simp [performAnalysis, hlock]
  · intro hunready hne
    unfold performAnalysis
    rw [hlock]
    simp only [Bool.not_true, Bool.false_eq_true, if_false]
    rw [if_neg (by simpa [List.isEmpty_iff] using hne)]
    rw [runModels_skip_all hunready]
    simp [calculateWeightedScore, calculateConfidence]
  · intro msg h hmsg
    unfold performAnalysis at h
    rw [hlock] at h
    simp only [Bool.not_true, Bool.false_eq_true, if_false] at h
    by_cases hnil : models.isEmpty = true
    · rw [if_pos hnil] at h
      injection h with he
      injection he with hm
      exact absurd hm.symm hmsg
    · rw [if_neg hnil] at h
      cases hr : runModels content models [] [] [] with
      | error er =>
        rw [hr] at h
        injection h with he
        subst he
        exact runModels_error_source hr
      | ok triple =>
        rw [hr] at h
        obtain ⟨cats, flags, times⟩ := triple
        simp at h

theorem lastWrite_mem {α : Type} {j : Nat} {v : α} {l : List (Nat × α)}
    (h : lastWrite j l = some v) : (j, v) ∈ l := by
  induction l with
  | nil => simp [lastWrite] at h
  | cons p rest ih =>
    unfold lastWrite at h
    cases hr : lastWrite j rest with
    | some w =>
      rw [hr] at h
      injection h with hvw
      subst hvw
      exact List.mem_cons_of_mem _ (ih hr)
    | none =>
      rw [hr] at h
      by_cases hj : p.1 = j
      · rw [if_pos hj] at h
        injection h with hv
        have hp : p = (j, v) := by
          obtain ⟨p1, p2⟩ := p
          simp only at hj hv
          rw [hj, hv]
        rw [← hp]
        exact List.mem_cons_self _ _
      · rw [if_neg hj] at h
        exact absurd h (by simp)

theorem lastWrite_isSome_of_mem {α : Type} {j : Nat} {v : α} {l : List (Nat × α)}
    (h : (j, v) ∈ l) : (lastWrite j l).isSome = true := by
  induction l with
  | nil => simp at h
  | cons p rest ih =>
    unfold lastWrite
    cases hr : lastWrite j rest with
    | some w => simp
    | none =>
      rcases List.mem_cons.1 h with heq | hmem
      · rw [← heq]
        simp
      · have := ih hmem
        rw [hr] at this
        simp at this

theorem foldl_set_length {α : Type} (msgs : List (Nat × α)) (acc : List (Option α)) :
    (msgs.foldl (fun a m => a.set m.1 (some m.2)) acc).length = acc.length := by
  induction msgs generalizing acc with
  | nil => rfl
  | cons p rest ih =>
    rw [List.foldl_cons, ih]
    simp

theorem lastWrite_cons {α : Type} (j : Nat) (p : Nat × α) (rest : List (Nat × α)) :
    lastWrite j (p :: rest) =
      match lastWrite j rest with
      | some v => some v
      | none => if p.1 = j then some p.2 else none := rfl

theorem foldl_set_getElem? {α : Type} (msgs : List (Nat × α)) (acc : List (Option α)) (j : Nat)
    (hj : j < acc.length) :
    (msgs.foldl (fun a m => a.set m.1 (some m.2)) acc)[j]? =
      match lastWrite j msgs with
      | some v => some (some v)
      | none => acc[j]? := by
  induction msgs generalizing acc with
  | nil => simp [lastWrite]
  | cons p rest ih =>
    have hj' : j < (acc.set p.1 (some p.2)).length := by simpa using hj
    rw [List.foldl_cons, ih _ hj', lastWrite_cons]
    cases lastWrite j rest with
    | some v => rfl
    | none =>
      by_cases hp : p.1 = j
      · rw [if_pos hp]
        subst hp
        exact List.getElem?_set_self hj
      · rw [if_neg hp]
        exact List.getElem?_set_ne hp

theorem reassemble_of_perm {α : Type} (rs : List α) (msgs : List (Nat × α))
    (h : msgs.Perm rs.enum) :
    reassemble rs.length msgs = rs.map some := by
  apply List.ext_getElem?
  intro j
  by_cases hj : j < rs.length
  · have hlen : j < (List.replicate rs.length (none : Option α)).length := by simpa using hj
    unfold reassemble
    rw [foldl_set_getElem? _ _ _ hlen]
    have hmem : (j, rs[j]) ∈ rs.enum := by
      rw [List.mk_mem_enum_iff_getElem?]
      simp [List.getElem?_eq_getElem hj]
    have hmem' : (j, rs[j]) ∈ msgs := h.mem_iff.2 hmem
    have hsome := lastWrite_isSome_of_mem hmem'
    obtain ⟨v, hv⟩ := Option.isSome_iff_exists.1 hsome
    have hvm : (j, v) ∈ rs.enum := h.mem_iff.1 (lastWrite_mem hv)
    rw [List.mk_mem_enum_iff_getElem?] at hvm
    rw [hv]
    simp only [List.getElem?_map]
    rw [hvm]
    rfl
  · have h1 : (reassemble rs.length msgs).length = rs.length := by
      unfold reassemble
      rw [foldl_set_length]
      simp
    have h2 : (rs.map some).length = rs.length := by simp
    rw [List.getElem?_eq_none (by omega), List.getElem?_eq_none (by omega)]

theorem allSome_map_some {α : Type} (l : List α) : allSome (l.map some) = some l := by
  induction l with
  | nil => rfl
  | cons a t ih => simp [allSome, ih]

theorem seqExcept_ok {ε α : Type} {l : List (Except ε α)} {as : List α}
    (h : seqExcept l = Except.ok as) : l = as.map Except.ok := by
  induction l generalizing as with
  | nil =>
    unfold seqExcept at h
    injection h with he
    rw [← he]
    rfl
  | cons x t ih =>
    cases x with
    | error e => simp [seqExcept] at h
    | ok a =>
      unfold seqExcept at h
      cases hs : seqExcept t with
      | error e =>
        rw [hs] at h
        simp [Except.map] at h
      | ok tl =>
        rw [hs] at h
        simp only [Except.map] at h
        injection h with he
        rw [← he]
        simp [ih hs]

theorem seqExcept_shape {ε α : Type} (l : List (Except ε α)) :
    (∃ e, seqExcept l = Except.error e)
    ∨ (∃ as, seqExcept l = Except.ok as ∧ as.length = l.length) := by
  induction l with
  | nil => exact Or.inr ⟨[], rfl, rfl⟩
  | cons x t ih =>
    cases x with
    | error e => exact Or.inl ⟨e, rfl⟩
    | ok a =>
      rcases ih with ⟨e, he⟩ | ⟨as, has, hlen⟩
      · refine Or.inl ⟨e, ?_⟩
        show (seqExcept t).map (a :: ·) = Except.error e
        rw [he]
        rfl
      · refine Or.inr ⟨a :: as, ?_, by simp [hlen]⟩
        show (seqExcept t).map (a :: ·) = Except.ok (a :: as)
        rw [has]
        rfl

theorem sequentialBatchAnalyze_shape (hash : String → Nat) (env : SystemEnv)
    (models : Registry) (st : AnalyzerState) (items : List (String × ItemEnv)) :
    (∃ e, sequentialBatchAnalyze hash env models st items = Except.error e)
    ∨ (∃ scores, sequentialBatchAnalyze hash env models st items = Except.ok scores
        ∧ scores.length = items.length) := by
  induction items generalizing st with
  | nil => exact Or.inr ⟨[], rfl, rfl⟩
  | cons it rest ih =>
    obtain ⟨c, ie⟩ := it
    unfold sequentialBatchAnalyze
    cases hout : analyzeWithTimeout hash env ie.locks ie.timedOut ie.elapsedMs models st c with
    | mk result st' job =>
      cases result with
      | error e => exact Or.inl ⟨e, rfl⟩
      | ok s =>
        rcases ih st' with ⟨e, he⟩ | ⟨scores, hs, hlen⟩
        · refine Or.inl ⟨e, ?_⟩
          show (sequentialBatchAnalyze hash env models st' rest).map (s :: ·) = Except.error e
          rw [he]
          rfl
        · refine Or.inr ⟨s :: scores, ?_, by simp [hlen]⟩
          show (sequentialBatchAnalyze hash env models st' rest).map (s :: ·)
            = Except.ok (s :: scores)
          rw [hs]
          rfl

/-- Claim C8: the parallel batch reassembles the fan-in messages by their
original index, so for every arrival order that is a permutation of the
per-item sends it returns the per-item results collected in input order;
in both the parallel and the sequential mode the call returns either a
full vector of scores, the i-th computed from the i-th input text, or a
single error, never a partial result. -/
theorem c8_batch_order (hash : String → Nat) (env : SystemEnv) (models : Registry)
    (items : List (String × ItemEnv))
    (arrival : List (Nat × Except SafetyAnalysisError SafetyScore))
    (h : arrival.Perm (batchSends hash env models items)) :
    parallelBatchAnalyze items arrival
        = seqExcept (items.map fun it => itemResult hash env models it.1 it.2)
    ∧ (∀ scores, parallelBatchAnalyze items arrival = Except.ok scores →
        (items.map fun it => itemResult hash env models it.1 it.2) = scores.map Except.ok)
    ∧ ((∃ e, parallelBatchAnalyze items arrival = Except.error e)
        ∨ (∃ scores, parallelBatchAnalyze items arrival = Except.ok scores
            ∧ scores.length = items.length))
    ∧ (∀ st, (∃ e, sequentialBatchAnalyze hash env models st items = Except.error e)
        ∨ (∃ scores, sequentialBatchAnalyze hash env models st items = Except.ok scores
            ∧ scores.length = items.length)) := by
  have hlen : items.length
      = (items.map fun it => itemResult hash env models it.1 it.2).length := by simp
  have hpar : parallelBatchAnalyze items arrival
      = seqExcept (items.map fun it => itemResult hash env models it.1 it.2) := by
    unfold parallelBatchAnalyze
    rw [hlen, reassemble_of_perm _ _ h, allSome_map_some]
  refine ⟨hpar, ?_, ?_, ?_⟩
  · intro scores hs
    rw [hpar] at hs
    exact seqExcept_ok hs
  · rw [hpar]
    rcases seqExcept_shape (items.map fun it => itemResult hash env models it.1 it.2) with
      ⟨e, he⟩ | ⟨as, has, hl⟩
    · exact Or.inl ⟨e, he⟩
    · refine Or.inr ⟨as, has, ?_⟩
      rw [hl]
      simp
  · intro st
    exact sequentialBatchAnalyze_shape hash env models st items

/-- Closed witness for C8: a two-item batch whose fan-in messages arrive
in swapped order still collects the per-item results in input order. -/
theorem c8_batch_order_witness :
    ([((1 : Nat), Except.ok sampleMergedScore), ((0 : Nat), Except.ok sampleMergedScore)]).Perm
        (batchSends sampleHash sampleEnv sampleRegistry sampleItems)
    ∧ parallelBatchAnalyze sampleItems
        [((1 : Nat), Except.ok sampleMergedScore), ((0 : Nat), Except.ok sampleMergedScore)]
      = seqExcept (sampleItems.map fun it =>
          itemResult sampleHash sampleEnv sampleRegistry it.1 it.2) := by
  have hitem : ∀ c : String, ∀ ie : ItemEnv, ie.locks = locksOk → ie.timedOut = false →
      itemResult sampleHash sampleEnv sampleRegistry c ie = Except.ok sampleMergedScore := by
    intro c ie hl ht
    unfold itemResult
    rw [hl, ht]
    have hmiss : (if locksOk.cacheRead then freshState.cache.lookup (sampleHash c) else none)
        = none := by
      simp [locksOk, freshState]
    have hperf : performAnalysis sampleEnv locksOk c sampleRegistry
        = Except.ok sampleMergedScore := by
      simp [performAnalysis, locksOk, sampleRegistry, sampleModel, runModels, alInsert,
        sampleModelScore, calculateWeightedScore, calculateConfidence, sampleMergedScore,
        sampleCategory]
    rw [analyzeWithTimeout_miss_ok hmiss hperf]
  have hsends : batchSends sampleHash sampleEnv sampleRegistry sampleItems
      = [((0 : Nat), Except.ok sampleMergedScore), ((1 : Nat), Except.ok sampleMergedScore)] := by
    unfold batchSends sampleItems
    rw [List.map_cons, List.map_cons, List.map_nil]
    rw [hitem "a" ⟨locksOk, false, 5⟩ rfl rfl, hitem "b" ⟨locksOk, false, 6⟩ rfl rfl]
    rfl
  have hperm : ([((1 : Nat), Except.ok sampleMergedScore),
      ((0 : Nat), Except.ok sampleMergedScore)]).Perm
      (batchSends sampleHash sampleEnv sampleRegistry sampleItems) := by
    rw [hsends]
    exact List.Perm.swap _ _ _
  exact ⟨hperm,
    (c8_batch_order sampleHash sampleEnv sampleRegistry sampleItems _ hperm).1⟩

/-- Closed witness for the amended C10: a registry holding only a
not-ready model yields the all-zero Ok score. -/
theorem c10_empty_vs_unready_witness :
    locksOk.modelsRead = true
    ∧ performAnalysis sampleEnv locksOk "x" [("m2", sleepyModel)]
        = Except.ok ⟨0, 0, [], [], 0, createMetadata sampleEnv⟩ :=
  ⟨rfl,
   (c10_empty_vs_unready sampleEnv locksOk "x" [("m2", sleepyModel)] rfl).2.1
     (by intro p hp; simp at hp; rw [hp]; rfl) (by simp)⟩

end Showcase

end OpenSafe
